import Mathlib

/-!
Shallow embedding of the vote-integrity and result-aggregation core of the
`alx-project-nexus` online poll system (Django application), together with
proofs of the specification claims about it.

The embedding follows `polls/models.py`, `polls/serializers.py`,
`polls/views.py` and `polls/management/commands/update_poll_results.py`.
The database is modelled as explicit lists of rows; time is a natural
number (`now`); percentages are rationals.
-/

namespace PollSystem

/-- A row of the `Poll` table (`polls/models.py`, class `Poll`).
`expires_at = none` models a poll without an expiration date. -/
structure Poll where
  id : Nat
  title : String
  is_active : Bool
  expires_at : Option Nat
  allow_multiple_votes : Bool
  total_votes : Nat
deriving DecidableEq

/-- A row of the `PollOption` table (`polls/models.py`, class `PollOption`). -/
structure PollOption where
  id : Nat
  poll : Nat
  text : String
  vote_count : Nat
  order : Nat
deriving DecidableEq

/-- A row of the `Vote` table (`polls/models.py`, class `Vote`).
`voter` is the authenticated user id (null for anonymous votes);
`voter_ip` and `voter_session` track anonymous voters. -/
structure Vote where
  id : Nat
  poll : Nat
  option : Nat
  voter : Option Nat
  voter_ip : Option String
  voter_session : Option String
deriving DecidableEq

/-- One entry of the options list inside a results payload
(`views.generate_poll_results` / `PollResult.update_results`). -/
structure OptionResult where
  id : Nat
  text : String
  vote_count : Nat
  percentage : ℚ
deriving DecidableEq

/-- The payload returned by `views.generate_poll_results`. -/
structure ResultSnapshot where
  poll_id : Nat
  poll_title : String
  total_votes : Nat
  options : List OptionResult
  last_updated : Nat
  is_active : Bool
  is_expired : Bool
deriving DecidableEq

/-- The JSON payload stored by `PollResult.update_results` in `results_data`. -/
structure ResultsData where
  poll_id : Nat
  poll_title : String
  total_votes : Nat
  options : List OptionResult
  last_updated : Nat
deriving DecidableEq

/-- A row of the `PollResult` table (`polls/models.py`, class `PollResult`).
`results_data = none` models a row whose JSON payload has not been
populated yet (as right after `get_or_create`). -/
structure PollResultRec where
  poll : Nat
  results_data : Option ResultsData
  total_votes : Nat
deriving DecidableEq

/-- The database state: the four tables plus the result cache
(`django.core.cache` entries keyed `poll_results_<id>`). -/
structure DB where
  polls : List Poll
  options : List PollOption
  votes : List Vote
  results : List PollResultRec
  cache : List (Nat × ResultSnapshot)
deriving DecidableEq

/-- The request context seen by `VoteSerializer`: optional authenticated
user, `HTTP_X_FORWARDED_FOR` and `REMOTE_ADDR` headers, session key. -/
structure Request where
  user : Option Nat
  x_forwarded_for : Option String
  remote_addr : Option String
  session_key : Option String
deriving DecidableEq

/-- Python truthiness of an optional string (`if voter_ip:` ...). -/
def truthy : Option String → Bool
  | none => false
  | some s => s ≠ ""

/-- `VoteSerializer.get_client_ip`: first entry of `HTTP_X_FORWARDED_FOR`
if present (and non-empty), otherwise `REMOTE_ADDR`. -/
def get_client_ip (req : Request) : Option String :=
  match req.x_forwarded_for with
  | some s => if s = "" then req.remote_addr else some ((s.splitOn ",").headD s)
  | none => req.remote_addr

/-- `Poll.is_expired`: true when `expires_at` is set and strictly in the
past (`timezone.now() > self.expires_at`). -/
def Poll.is_expired (p : Poll) (now : Nat) : Bool :=
  match p.expires_at with
  | none => false
  | some t => now > t

/-- `Poll.can_vote`: active and not expired. -/
def Poll.can_vote (p : Poll) (now : Nat) : Bool :=
  p.is_active && !(p.is_expired now)

/-- Number of `Vote` rows referencing poll `pid` (`poll.votes.count()`). -/
def countPollVotes (db : DB) (pid : Nat) : Nat :=
  db.votes.countP (fun v => v.poll == pid)

/-- Number of `Vote` rows referencing option `oid` (`option.votes.count()`). -/
def countOptionVotes (db : DB) (oid : Nat) : Nat :=
  db.votes.countP (fun v => v.option == oid)

/-- `Poll.update_total_votes`: recompute the cached `total_votes` of poll
`pid` from the ledger and store it. -/
def Poll.update_total_votes (db : DB) (pid : Nat) : DB :=
  { db with polls := db.polls.map (fun p =>
      if p.id == pid then { p with total_votes := countPollVotes db pid } else p) }

/-- `PollOption.update_vote_count`: recompute the cached `vote_count` of
option `oid` from the ledger and store it. -/
def PollOption.update_vote_count (db : DB) (oid : Nat) : DB :=
  { db with options := db.options.map (fun o =>
      if o.id == oid then { o with vote_count := countOptionVotes db oid } else o) }

/-- `Vote.save`: insert the row, then refresh the cached counts of the
vote's option and poll (the `save` override in `polls/models.py`). -/
def Vote.save (db : DB) (v : Vote) : DB :=
  let db1 : DB := { db with votes := db.votes ++ [v] }
  let db2 := PollOption.update_vote_count db1 v.option
  Poll.update_total_votes db2 v.poll

/-- `Vote.delete`: remove the row (by primary key), then refresh the cached
counts of the vote's option and poll (the `delete` override). -/
def Vote.delete (db : DB) (v : Vote) : DB :=
  let db1 : DB := { db with votes := db.votes.filter (fun w => w.id != v.id) }
  let db2 := PollOption.update_vote_count db1 v.option
  Poll.update_total_votes db2 v.poll

/-- Modelled from the spec (§4.4): the `reconcile(poll)` repair operation,
which "recomputes both counters from the ledger by direct count".  No
single function in the source performs it; it is the composition of the
source's `PollOption.update_vote_count` over the poll's options followed by
`Poll.update_total_votes`. -/
def reconcile (db : DB) (pid : Nat) : DB :=
  let db1 := (db.options.filter (fun o => o.poll == pid)).foldl
    (fun d o => PollOption.update_vote_count d o.id) db
  Poll.update_total_votes db1 pid

/-- Rejection reasons surfaced by `VoteSerializer` (`serializers.py`):
expired poll, inactive poll, duplicate vote, unknown option text. -/
inductive VoteError where
  | pollExpired
  | pollInactive
  | alreadyVoted
  | invalidOption
deriving DecidableEq

/-- Lower-case a string character by character (Python `str.lower()` as
used by the `iexact` lookup). -/
def lowerStr (s : String) : String := ⟨s.data.map Char.toLower⟩

/-- Remove leading and trailing whitespace (Python `str.strip()`). -/
def stripStr (s : String) : String :=
  ⟨((s.data.dropWhile Char.isWhitespace).reverse.dropWhile Char.isWhitespace).reverse⟩

/-- `VoteSerializer.validate_option_text`: case-insensitive lookup of the
stripped option text among the poll's options
(`poll.options.get(text__iexact=value.strip())`). -/
def findOption (db : DB) (pid : Nat) (text : String) : Option PollOption :=
  db.options.find? (fun o => o.poll == pid && lowerStr o.text == lowerStr (stripStr text))

/-- `VoteSerializer.validate`: eligibility check (`can_vote`, reporting
expiry over inactivity), then the duplicate-vote check — by user reference
for authenticated requests, by IP **or** session for anonymous ones, each
guarded by Python truthiness of the respective value. -/
def validate (db : DB) (now : Nat) (poll : Poll) (req : Request) : Option VoteError :=
  if !(poll.can_vote now) then
    if poll.is_expired now then some .pollExpired else some .pollInactive
  else if poll.allow_multiple_votes then none
  else
    match req.user with
    | some u =>
      if db.votes.any (fun v => v.poll == poll.id && v.voter == some u) then
        some .alreadyVoted
      else none
    | none =>
      let ip := get_client_ip req
      let sess := req.session_key
      if truthy ip && db.votes.any (fun v => v.poll == poll.id && v.voter_ip == ip) then
        some .alreadyVoted
      else if truthy sess && db.votes.any (fun v => v.poll == poll.id && v.voter_session == sess) then
        some .alreadyVoted
      else none

/-- A fresh primary key for a new `Vote` row (UUIDs in the source; here one
larger than every existing id). -/
def freshVoteId (db : DB) : Nat :=
  db.votes.foldr (fun v m => max (v.id + 1) m) 0

/-- `VoteSerializer.create`: build the `Vote` row — user reference for
authenticated requests, client IP and session key for anonymous ones —
and save it (which updates the cached counts). -/
def VoteSerializer.create (db : DB) (poll : Poll) (req : Request) (opt : PollOption) :
    DB × Vote :=
  let v : Vote :=
    { id := freshVoteId db
      poll := poll.id
      option := opt.id
      voter := req.user
      voter_ip := if req.user.isSome then none else get_client_ip req
      voter_session := if req.user.isSome then none else req.session_key }
  (Vote.save db v, v)

/-- Outcome of the `cast_vote` endpoint. -/
inductive CastResult where
  | notFound
  | rejected (e : VoteError)
  | created (v : Vote)
deriving DecidableEq

/-- `views.cast_vote`: look up the poll (404 if absent), resolve the option
text (field validation runs before object validation in DRF), run
`VoteSerializer.validate`, and on success create the vote. -/
def cast_vote (db : DB) (now : Nat) (pid : Nat) (req : Request) (text : String) :
    DB × CastResult :=
  match db.polls.find? (fun p => p.id == pid) with
  | none => (db, .notFound)
  | some poll =>
    match findOption db poll.id text with
    | none => (db, .rejected .invalidOption)
    | some opt =>
      match validate db now poll req with
      | some e => (db, .rejected e)
      | none =>
        let r := VoteSerializer.create db poll req opt
        (r.1, .created r.2)

/-- `round(x, 2)`: round to two decimal places. -/
def round2 (q : ℚ) : ℚ := (round (q * 100) : ℤ) / 100

/-- The percentage computed for one option: `vote_count / total_votes * 100`
when `total_votes > 0`, else `0`, rounded to two decimals. -/
def pct (vote_count total : Nat) : ℚ :=
  round2 (if total > 0 then (vote_count : ℚ) / (total : ℚ) * 100 else 0)

/-- Insert into a list sorted by `le` (helper for the default queryset
ordering of options). -/
def insertSorted (le : PollOption → PollOption → Bool) (a : PollOption) :
    List PollOption → List PollOption
  | [] => [a]
  | b :: t => if le a b then a :: b :: t else b :: insertSorted le a t

/-- Insertion sort (helper for the default queryset ordering of options). -/
def sortByLE (le : PollOption → PollOption → Bool) : List PollOption → List PollOption
  | [] => []
  | a :: t => insertSorted le a (sortByLE le t)

/-- The `Meta.ordering = ['order', 'text']` comparison on options. -/
def optionLE (a b : PollOption) : Bool :=
  a.order < b.order || (a.order == b.order && decide (a.text ≤ b.text))

/-- `poll.options.all()`: the poll's options in display order. -/
def pollOptions (db : DB) (pid : Nat) : List PollOption :=
  sortByLE optionLE (db.options.filter (fun o => o.poll == pid))

/-- Build one options-list entry of a results payload. -/
def optionEntry (total : Nat) (o : PollOption) : OptionResult :=
  { id := o.id, text := o.text, vote_count := o.vote_count
    percentage := pct o.vote_count total }

/-- `views.generate_poll_results`: the real-time results payload, built from
the cached counters. -/
def generate_poll_results (db : DB) (now : Nat) (poll : Poll) : ResultSnapshot :=
  { poll_id := poll.id
    poll_title := poll.title
    total_votes := poll.total_votes
    options := (pollOptions db poll.id).map (optionEntry poll.total_votes)
    last_updated := now
    is_active := poll.is_active
    is_expired := poll.is_expired now }

/-- The `results_data` payload written by `PollResult.update_results`. -/
def computeResultsData (db : DB) (now : Nat) (poll : Poll) : ResultsData :=
  { poll_id := poll.id
    poll_title := poll.title
    total_votes := poll.total_votes
    options := (pollOptions db poll.id).map (optionEntry poll.total_votes)
    last_updated := now }

/-- `PollResult.update_results`: refresh the stored JSON payload and cached
`total_votes` of the `PollResult` row for poll `pid`. -/
def PollResult.update_results (db : DB) (now : Nat) (pid : Nat) : DB :=
  match db.polls.find? (fun p => p.id == pid) with
  | none => db
  | some poll =>
    { db with results := db.results.map (fun r =>
        if r.poll == pid then
          { r with results_data := some (computeResultsData db now poll)
                   total_votes := poll.total_votes }
        else r) }

/-- `cache.set(f"poll_results_{pid}", snap, ...)`. -/
def cacheSet (db : DB) (pid : Nat) (snap : ResultSnapshot) : DB :=
  { db with cache := (pid, snap) :: db.cache.filter (fun e => e.1 != pid) }

/-- `cache.get(f"poll_results_{pid}")`. -/
def cacheGet (db : DB) (pid : Nat) : Option ResultSnapshot :=
  (db.cache.find? (fun e => e.1 == pid)).map (fun e => e.2)

/-- `PollResult.objects.filter(poll=poll).first()`. -/
def resultFor (db : DB) (pid : Nat) : Option PollResultRec :=
  db.results.find? (fun r => r.poll == pid)

/-- The skip test of the refresh command (`update_poll_results.py` lines
57-60): a `PollResult` row for the poll exists and its cached
`total_votes` equals the poll's current `total_votes`. -/
def skipb (db : DB) (p : Poll) : Bool :=
  match resultFor db p.id with
  | some pr => pr.total_votes == p.total_votes
  | none => false

/-- Look up a poll row by primary key. -/
def findPollById (db : DB) (pid : Nat) : Option Poll :=
  db.polls.find? (fun p => p.id == pid)

/-- Look up an option row by primary key. -/
def findOptionById (db : DB) (oid : Nat) : Option PollOption :=
  db.options.find? (fun o => o.id == oid)

/-- `views.poll_results`: serve the cached snapshot; on a miss compute it
synchronously and populate the cache. -/
def poll_results_view (db : DB) (now : Nat) (pid : Nat) :
    DB × Option ResultSnapshot :=
  match db.polls.find? (fun p => p.id == pid) with
  | none => (db, none)
  | some poll =>
    match cacheGet db pid with
    | some snap => (db, some snap)
    | none =>
      let snap := generate_poll_results db now poll
      (cacheSet db pid snap, some snap)

/-- `Command.update_poll_results` (management command): skip when a
`PollResult` row exists whose cached `total_votes` equals the poll's
current `total_votes` (unless `force`); otherwise regenerate the snapshot,
republish it to the cache, `get_or_create` the `PollResult` row and refresh
it.  Returns whether the poll was updated. -/
def Command.update_poll_results (db : DB) (now : Nat) (poll : Poll) (force : Bool) :
    DB × Bool :=
  if !force &&
     (match resultFor db poll.id with
      | some pr => pr.total_votes == poll.total_votes
      | none => false) then
    (db, false)
  else
    let snap := generate_poll_results db now poll
    let db1 := cacheSet db poll.id snap
    let db2 :=
      if (resultFor db1 poll.id).isSome then db1
      else { db1 with results := db1.results ++ [{ poll := poll.id, results_data := none, total_votes := 0 }] }
    let db3 := PollResult.update_results db2 now poll.id
    (db3, true)

/-- `Command.handle` without `--poll-id`: iterate over all active polls,
updating each and counting how many were refreshed. -/
def Command.handle_all (db : DB) (now : Nat) (force : Bool) : DB × Nat :=
  (db.polls.filter (fun p => p.is_active)).foldl
    (fun acc p =>
      let r := Command.update_poll_results acc.1 now p force
      (r.1, acc.2 + (if r.2 then 1 else 0)))
    (db, 0)

/-- Cached option counts agree with the ledger. -/
def optionCountsAccurate (db : DB) : Prop :=
  ∀ o ∈ db.options, o.vote_count = countOptionVotes db o.id

/-- Cached poll totals agree with the ledger. -/
def pollTotalsAccurate (db : DB) : Prop :=
  ∀ p ∈ db.polls, p.total_votes = countPollVotes db p.id

/-- Every vote references an option of its own poll (the serializer only
creates votes through `poll.options.get(...)`). -/
def votesWellFormed (db : DB) : Prop :=
  ∀ v ∈ db.votes, ∃ o ∈ db.options, o.id = v.option ∧ o.poll = v.poll

/-- Primary keys are unique in each table. -/
def idsNodup (db : DB) : Prop :=
  (db.polls.map Poll.id).Nodup ∧ (db.options.map PollOption.id).Nodup ∧
    (db.votes.map Vote.id).Nodup

/-- The state invariant of the voting core. -/
def Inv (db : DB) : Prop :=
  idsNodup db ∧ votesWellFormed db ∧ optionCountsAccurate db ∧ pollTotalsAccurate db

instance (db : DB) : Decidable (idsNodup db) := by
  unfold idsNodup
  infer_instance

instance (db : DB) : Decidable (votesWellFormed db) := by
  unfold votesWellFormed
  infer_instance

instance (db : DB) : Decidable (optionCountsAccurate db) := by
  unfold optionCountsAccurate
  infer_instance

instance (db : DB) : Decidable (pollTotalsAccurate db) := by
  unfold pollTotalsAccurate
  infer_instance

instance (db : DB) : Decidable (Inv db) := by
  unfold Inv
  infer_instance

/-- Sum of the cached `vote_count` over all options of poll `pid`. -/
def sumOptionCounts (db : DB) (pid : Nat) : Nat :=
  ((db.options.filter (fun o => o.poll == pid)).map PollOption.vote_count).sum

/-- The per-poll consistency equations of the spec: cached total = sum of
cached option counts = number of vote rows. -/
def pollConsistent (db : DB) (p : Poll) : Prop :=
  p.total_votes = sumOptionCounts db p.id ∧
    sumOptionCounts db p.id = countPollVotes db p.id

/-- The request shares a (truthy) client address with the stored vote. -/
def sharesAddress (req : Request) (v : Vote) : Prop :=
  ∃ a, a ≠ "" ∧ get_client_ip req = some a ∧ v.voter_ip = some a

/-- The request shares a (truthy) session key with the stored vote. -/
def sharesSession (req : Request) (v : Vote) : Prop :=
  ∃ s, s ≠ "" ∧ req.session_key = some s ∧ v.voter_session = some s

/-! ### Concrete fixtures used by the witness theorems -/

/-- A two-option poll with one authenticated vote already recorded. -/
def dbW : DB :=
  { polls := [{ id := 1, title := "Best pet poll", is_active := true, expires_at := none,
                allow_multiple_votes := false, total_votes := 1 }]
    options := [{ id := 10, poll := 1, text := "Cats", vote_count := 1, order := 0 },
                { id := 11, poll := 1, text := "Dogs", vote_count := 0, order := 1 }]
    votes := [{ id := 100, poll := 1, option := 10, voter := some 5,
                voter_ip := none, voter_session := none }]
    results := [{ poll := 1, results_data := none, total_votes := 1 }]
    cache := [] }

/-- An authenticated request by a user who has not voted in `dbW`. -/
def reqW : Request :=
  { user := some 6, x_forwarded_for := none, remote_addr := some "9.9.9.9",
    session_key := none }

/-- An anonymous request carrying an address and a session token. -/
def reqAnonW : Request :=
  { user := none, x_forwarded_for := none, remote_addr := some "1.2.3.4",
    session_key := some "sess1" }

/-- An anonymous request with no address and no session token. -/
def reqEmptyW : Request :=
  { user := none, x_forwarded_for := none, remote_addr := none, session_key := none }

/-- The poll row of `dbW`. -/
def pollW : Poll :=
  { id := 1, title := "Best pet poll", is_active := true, expires_at := none,
    allow_multiple_votes := false, total_votes := 1 }

/-- The first option row of `dbW`. -/
def optCatsW : PollOption :=
  { id := 10, poll := 1, text := "Cats", vote_count := 1, order := 0 }

/-- The second option row of `dbW`. -/
def optDogsW : PollOption :=
  { id := 11, poll := 1, text := "Dogs", vote_count := 0, order := 1 }

/-- The vote row already present in `dbW`. -/
def voteW : Vote :=
  { id := 100, poll := 1, option := 10, voter := some 5,
    voter_ip := none, voter_session := none }

/-- An expired poll (used for expiry-related witnesses). -/
def dbExpW : DB :=
  { polls := [{ id := 2, title := "Old poll about sports", is_active := true,
                expires_at := some 5, allow_multiple_votes := false, total_votes := 1 }]
    options := [{ id := 20, poll := 2, text := "Run", vote_count := 1, order := 0 },
                { id := 21, poll := 2, text := "Swim", vote_count := 0, order := 1 }]
    votes := [{ id := 200, poll := 2, option := 20, voter := some 5,
                voter_ip := none, voter_session := none }]
    results := []
    cache := [] }

/-- The poll row of `dbExpW` (expired since time 5). -/
def pollExpW : Poll :=
  { id := 2, title := "Old poll about sports", is_active := true,
    expires_at := some 5, allow_multiple_votes := false, total_votes := 1 }

/-- The second option row of `dbExpW`. -/
def optSwimW : PollOption :=
  { id := 21, poll := 2, text := "Swim", vote_count := 0, order := 1 }

/-- A second request by user 5, who already voted in `dbW`. -/
def reqUser5W : Request :=
  { user := some 5, x_forwarded_for := none, remote_addr := none, session_key := none }

/-- A second request by the user who already voted in `dbExpW`. -/
def reqExpW : Request :=
  { user := some 5, x_forwarded_for := none, remote_addr := none, session_key := none }

/-! ### Generic list lemmas -/

lemma sum_map_add {α : Type} (l : List α) (f g : α → Nat) :
    (l.map (fun a => f a + g a)).sum = (l.map f).sum + (l.map g).sum := by
  induction l with
  | nil => simp
  | cons a t ih => simp [ih]; omega

lemma sum_map_ite {α : Type} (l : List α) (p : α → Bool) :
    (l.map (fun a => if p a then 1 else 0)).sum = l.countP p := by
  induction l with
  | nil => simp
  | cons a t ih => simp [List.countP_cons, ih, Nat.add_comm]

lemma countP_beq_of_nodup {α : Type} [DecidableEq α] (l : List α) (hnd : l.Nodup)
    (a : α) (ha : a ∈ l) : l.countP (fun x => x == a) = 1 := by
  induction l with
  | nil => simp at ha
  | cons b t ih =>
    rw [List.countP_cons]
    rcases List.mem_cons.mp ha with rfl | hat
    · have : t.countP (fun x => x == a) = 0 := by
        rw [List.countP_eq_zero]
        intro x hx
        simp only [beq_iff_eq]
        intro hxa
        exact (List.nodup_cons.mp hnd).1 (hxa ▸ hx)
      simp [this]
    · have hba : b ≠ a := by
        intro h
        exact (List.nodup_cons.mp hnd).1 (h ▸ hat)
      rw [ih (List.nodup_cons.mp hnd).2 hat]
      simp [hba]

/-! ### Double counting: option-wise vote counts sum to the poll's count -/

lemma owner_contribution (opts : List PollOption) (v : Vote) (pid : Nat)
    (hnd : (opts.map PollOption.id).Nodup)
    (hv : ∃ o ∈ opts, o.id = v.option ∧ o.poll = v.poll) :
    ((opts.filter (fun o => o.poll == pid)).map
        (fun o => if v.option == o.id then 1 else 0)).sum
      = if v.poll == pid then 1 else 0 := by
  obtain ⟨o₀, ho₀, hid, hpoll⟩ := hv
  rw [sum_map_ite, List.countP_filter]
  by_cases hp : v.poll = pid
  · have h1 : opts.countP (fun o => v.option == o.id && o.poll == pid)
        = opts.countP (fun o => o == o₀) := by
      apply List.countP_congr
      intro o ho
      simp only [Bool.and_eq_true, beq_iff_eq]
      constructor
      · rintro ⟨h₁, _⟩
        exact List.inj_on_of_nodup_map hnd ho ho₀ (by rw [hid, h₁])
      · rintro rfl
        exact ⟨hid.symm, by rw [hpoll, hp]⟩
    rw [h1, countP_beq_of_nodup opts (List.Nodup.of_map _ hnd) o₀ ho₀]
    simp [hp]
  · have h0 : opts.countP (fun o => v.option == o.id && o.poll == pid) = 0 := by
      rw [List.countP_eq_zero]
      intro o ho
      simp only [Bool.and_eq_true, beq_iff_eq, not_and]
      intro h₁ h₂
      have : o = o₀ := List.inj_on_of_nodup_map hnd ho ho₀ (by rw [hid, h₁])
      exact hp (by rw [← h₂, this, hpoll])
    rw [h0]
    simp [hp]

lemma sum_counts_eq (opts : List PollOption) (votes : List Vote) (pid : Nat)
    (hnd : (opts.map PollOption.id).Nodup)
    (hwf : ∀ v ∈ votes, ∃ o ∈ opts, o.id = v.option ∧ o.poll = v.poll) :
    ((opts.filter (fun o => o.poll == pid)).map
        (fun o => votes.countP (fun v => v.option == o.id))).sum
      = votes.countP (fun v => v.poll == pid) := by
  induction votes with
  | nil => simp
  | cons v vs ih =>
    have hv : ∃ o ∈ opts, o.id = v.option ∧ o.poll = v.poll := hwf v (by simp)
    have hvs : ∀ w ∈ vs, ∃ o ∈ opts, o.id = w.option ∧ o.poll = w.poll :=
      fun w hw => hwf w (by simp [hw])
    simp only [List.countP_cons]
    rw [sum_map_add, ih hvs, owner_contribution opts v pid hnd hv]

/-! ### The invariant implies the per-poll consistency equations -/

lemma inv_pollConsistent (db : DB) (h : Inv db) :
    ∀ p ∈ db.polls, pollConsistent db p := by
  obtain ⟨⟨_, hon, _⟩, hwf, hoa, hpa⟩ := h
  intro p hp
  have hsum : sumOptionCounts db p.id = countPollVotes db p.id := by
    unfold sumOptionCounts countPollVotes
    have hmap : (db.options.filter (fun o => o.poll == p.id)).map PollOption.vote_count
        = (db.options.filter (fun o => o.poll == p.id)).map
            (fun o => db.votes.countP (fun v => v.option == o.id)) := by
      apply List.map_congr_left
      intro o ho
      exact hoa o (List.mem_of_mem_filter ho)
    rw [hmap]
    exact sum_counts_eq db.options db.votes p.id hon hwf
  exact ⟨(hpa p hp).trans hsum.symm, hsum⟩

/-! ### Shapes of the mutating operations -/

lemma map_id_of_preserve {α β : Type} (l : List α) (g : α → α) (f : α → β)
    (h : ∀ a, f (g a) = f a) : (l.map g).map f = l.map f := by
  rw [List.map_map]
  exact List.map_congr_left (fun a _ => h a)

lemma find?_map_pres {α : Type} (l : List α) (g : α → α) (q : α → Bool)
    (h : ∀ a, q (g a) = q a) : (l.map g).find? q = (l.find? q).map g := by
  induction l with
  | nil => rfl
  | cons a t ih =>
    by_cases hq : q a
    · rw [List.find?_cons_of_pos _ hq, List.map_cons,
        List.find?_cons_of_pos _ (by rw [h a]; exact hq)]
      rfl
    · rw [List.find?_cons_of_neg _ hq, List.map_cons,
        List.find?_cons_of_neg _ (by rw [h a]; exact hq), ih]

lemma find?_key_of_mem {α β : Type} [DecidableEq β] (l : List α) (f : α → β)
    (hnd : (l.map f).Nodup) (a : α) (ha : a ∈ l) :
    l.find? (fun x => f x == f a) = some a := by
  induction l with
  | nil => simp at ha
  | cons b t ih =>
    rcases List.mem_cons.mp ha with rfl | hat
    · exact List.find?_cons_of_pos _ (by simp)
    · have hb : f b ≠ f a := by
        intro h
        have : f a ∈ t.map f := List.mem_map_of_mem f hat
        exact (List.nodup_cons.mp (by simpa using hnd)).1 (h ▸ this)
      rw [List.find?_cons_of_neg _ (by simp [hb])]
      exact ih (List.nodup_cons.mp (by simpa using hnd)).2 hat

lemma save_votes (db : DB) (v : Vote) : (Vote.save db v).votes = db.votes ++ [v] := rfl

lemma save_options (db : DB) (v : Vote) :
    (Vote.save db v).options = db.options.map (fun o =>
      if o.id == v.option then
        { o with vote_count := (db.votes ++ [v]).countP (fun w => w.option == v.option) }
      else o) := rfl

lemma save_polls (db : DB) (v : Vote) :
    (Vote.save db v).polls = db.polls.map (fun p =>
      if p.id == v.poll then
        { p with total_votes := (db.votes ++ [v]).countP (fun w => w.poll == v.poll) }
      else p) := rfl

lemma delete_votes (db : DB) (v : Vote) :
    (Vote.delete db v).votes = db.votes.filter (fun w => w.id != v.id) := rfl

lemma delete_options (db : DB) (v : Vote) :
    (Vote.delete db v).options = db.options.map (fun o =>
      if o.id == v.option then
        { o with vote_count :=
            (db.votes.filter (fun w => w.id != v.id)).countP (fun w => w.option == v.option) }
      else o) := rfl

lemma delete_polls (db : DB) (v : Vote) :
    (Vote.delete db v).polls = db.polls.map (fun p =>
      if p.id == v.poll then
        { p with total_votes :=
            (db.votes.filter (fun w => w.id != v.id)).countP (fun w => w.poll == v.poll) }
      else p) := rfl

/-! ### Invariant preservation -/

lemma update_vote_count_options (db : DB) (oid : Nat) :
    (PollOption.update_vote_count db oid).options = db.options.map (fun o =>
      if o.id == oid then { o with vote_count := countOptionVotes db oid } else o) := rfl

lemma update_total_votes_polls (db : DB) (pid : Nat) :
    (Poll.update_total_votes db pid).polls = db.polls.map (fun p =>
      if p.id == pid then { p with total_votes := countPollVotes db pid } else p) := rfl

lemma save_inv (db : DB) (v : Vote) (hInv : Inv db)
    (hid : ∀ w ∈ db.votes, w.id ≠ v.id)
    (howner : ∃ o ∈ db.options, o.id = v.option ∧ o.poll = v.poll) :
    Inv (Vote.save db v) := by
  obtain ⟨⟨hpn, hon, hvn⟩, hwf, hoa, hpa⟩ := hInv
  refine ⟨⟨?_, ?_, ?_⟩, ?_, ?_, ?_⟩
  · rw [save_polls, map_id_of_preserve]
    · exact hpn
    · intro p
      by_cases h : p.id = v.poll <;> simp [h]
  · rw [save_options, map_id_of_preserve]
    · exact hon
    · intro o
      by_cases h : o.id = v.option <;> simp [h]
  · rw [save_votes, List.map_append]
    refine List.Nodup.append hvn (by simp) ?_
    intro x hx hmem
    obtain ⟨w, hw, rfl⟩ := List.mem_map.mp hx
    simp only [List.map_cons, List.map_nil, List.mem_singleton] at hmem
    exact hid w hw hmem
  · intro w hw
    rw [save_votes] at hw
    rw [save_options]
    rcases List.mem_append.mp hw with hw' | hw'
    · obtain ⟨o, ho, h1, h2⟩ := hwf w hw'
      refine ⟨_, List.mem_map_of_mem _ ho, ?_, ?_⟩
      · by_cases h : o.id = v.option <;> simpa [h] using h1
      · by_cases h : o.id = v.option <;> simpa [h] using h2
    · obtain ⟨o, ho, h1, h2⟩ := howner
      have hw'' : w = v := by simpa using hw'
      refine ⟨_, List.mem_map_of_mem _ ho, ?_, ?_⟩
      · rw [hw'']
        by_cases h : o.id = v.option <;> simpa [h] using h1
      · rw [hw'']
        by_cases h : o.id = v.option <;> simpa [h] using h2
  · intro o' ho'
    rw [save_options] at ho'
    obtain ⟨o, ho, rfl⟩ := List.mem_map.mp ho'
    by_cases h : o.id = v.option
    · simp only [h, beq_self_eq_true, if_true]
      show (db.votes ++ [v]).countP (fun w => w.option == v.option)
          = countOptionVotes (Vote.save db v) v.option
      rfl
    · simp only [beq_iff_eq, h, if_false]
      show o.vote_count = (db.votes ++ [v]).countP (fun w => w.option == o.id)
      rw [List.countP_append]
      have h0 : ([v] : List Vote).countP (fun w => w.option == o.id) = 0 := by
        simp only [List.countP_cons, List.countP_nil, beq_iff_eq, Nat.zero_add]
        exact if_neg (fun hc => h hc.symm)
      rw [h0, Nat.add_zero]
      exact hoa o ho
  · intro p' hp'
    rw [save_polls] at hp'
    obtain ⟨p, hp, rfl⟩ := List.mem_map.mp hp'
    by_cases h : p.id = v.poll
    · simp only [h, beq_self_eq_true, if_true]
      show (db.votes ++ [v]).countP (fun w => w.poll == v.poll)
          = countPollVotes (Vote.save db v) v.poll
      rfl
    · simp only [beq_iff_eq, h, if_false]
      show p.total_votes = (db.votes ++ [v]).countP (fun w => w.poll == p.id)
      rw [List.countP_append]
      have h0 : ([v] : List Vote).countP (fun w => w.poll == p.id) = 0 := by
        simp only [List.countP_cons, List.countP_nil, beq_iff_eq, Nat.zero_add]
        exact if_neg (fun hc => h hc.symm)
      rw [h0, Nat.add_zero]
      exact hpa p hp

lemma delete_inv (db : DB) (v : Vote) (hInv : Inv db) (hv : v ∈ db.votes) :
    Inv (Vote.delete db v) := by
  obtain ⟨⟨hpn, hon, hvn⟩, hwf, hoa, hpa⟩ := hInv
  have hinj : ∀ w ∈ db.votes, w.id = v.id → w = v :=
    fun w hw h => List.inj_on_of_nodup_map hvn hw hv h
  refine ⟨⟨?_, ?_, ?_⟩, ?_, ?_, ?_⟩
  · rw [delete_polls, map_id_of_preserve]
    · exact hpn
    · intro p
      by_cases h : p.id = v.poll <;> simp [h]
  · rw [delete_options, map_id_of_preserve]
    · exact hon
    · intro o
      by_cases h : o.id = v.option <;> simp [h]
  · rw [delete_votes]
    exact List.Nodup.sublist (List.Sublist.map _ (List.filter_sublist _)) hvn
  · intro w hw
    rw [delete_votes] at hw
    rw [delete_options]
    obtain ⟨o, ho, h1, h2⟩ := hwf w (List.mem_of_mem_filter hw)
    refine ⟨_, List.mem_map_of_mem _ ho, ?_, ?_⟩
    · by_cases h : o.id = v.option <;> simpa [h] using h1
    · by_cases h : o.id = v.option <;> simpa [h] using h2
  · intro o' ho'
    rw [delete_options] at ho'
    obtain ⟨o, ho, rfl⟩ := List.mem_map.mp ho'
    by_cases h : o.id = v.option
    · simp only [h, beq_self_eq_true, if_true]
      show (db.votes.filter (fun w => w.id != v.id)).countP (fun w => w.option == v.option)
          = countOptionVotes (Vote.delete db v) v.option
      rfl
    · simp only [beq_iff_eq, h, if_false]
      show o.vote_count
          = (db.votes.filter (fun w => w.id != v.id)).countP (fun w => w.option == o.id)
      rw [List.countP_filter]
      have hc : db.votes.countP (fun w => w.option == o.id && w.id != v.id)
          = db.votes.countP (fun w => w.option == o.id) := by
        apply List.countP_congr
        intro w hw
        by_cases h1 : w.option = o.id
        · by_cases h2 : w.id = v.id
          · exact absurd ((hinj w hw h2) ▸ h1).symm h
          · simp [h1, h2]
        · simp [h1]
      rw [hc]
      exact hoa o ho
  · intro p' hp'
    rw [delete_polls] at hp'
    obtain ⟨p, hp, rfl⟩ := List.mem_map.mp hp'
    by_cases h : p.id = v.poll
    · simp only [h, beq_self_eq_true, if_true]
      show (db.votes.filter (fun w => w.id != v.id)).countP (fun w => w.poll == v.poll)
          = countPollVotes (Vote.delete db v) v.poll
      rfl
    · simp only [beq_iff_eq, h, if_false]
      show p.total_votes
          = (db.votes.filter (fun w => w.id != v.id)).countP (fun w => w.poll == p.id)
      rw [List.countP_filter]
      have hc : db.votes.countP (fun w => w.poll == p.id && w.id != v.id)
          = db.votes.countP (fun w => w.poll == p.id) := by
        apply List.countP_congr
        intro w hw
        by_cases h1 : w.poll = p.id
        · by_cases h2 : w.id = v.id
          · exact absurd ((hinj w hw h2) ▸ h1).symm h
          · simp [h1, h2]
        · simp [h1]
      rw [hc]
      exact hpa p hp

lemma update_vote_count_inv (db : DB) (oid : Nat) (hInv : Inv db) :
    Inv (PollOption.update_vote_count db oid) := by
  obtain ⟨⟨hpn, hon, hvn⟩, hwf, hoa, hpa⟩ := hInv
  refine ⟨⟨hpn, ?_, hvn⟩, ?_, ?_, hpa⟩
  · rw [update_vote_count_options, map_id_of_preserve]
    · exact hon
    · intro o
      by_cases h : o.id = oid <;> simp [h]
  · intro w hw
    rw [update_vote_count_options]
    obtain ⟨o, ho, h1, h2⟩ := hwf w hw
    refine ⟨_, List.mem_map_of_mem _ ho, ?_, ?_⟩
    · by_cases h : o.id = oid <;> simpa [h] using h1
    · by_cases h : o.id = oid <;> simpa [h] using h2
  · intro o' ho'
    rw [update_vote_count_options] at ho'
    obtain ⟨o, ho, rfl⟩ := List.mem_map.mp ho'
    by_cases h : o.id = oid
    · simp only [h, beq_self_eq_true, if_true]
      show countOptionVotes db oid = countOptionVotes (PollOption.update_vote_count db oid) oid
      rfl
    · simp only [beq_iff_eq, h, if_false]
      exact hoa o ho

lemma update_total_votes_inv (db : DB) (pid : Nat) (hInv : Inv db) :
    Inv (Poll.update_total_votes db pid) := by
  obtain ⟨⟨hpn, hon, hvn⟩, hwf, hoa, hpa⟩ := hInv
  refine ⟨⟨?_, hon, hvn⟩, hwf, hoa, ?_⟩
  · rw [update_total_votes_polls, map_id_of_preserve]
    · exact hpn
    · intro p
      by_cases h : p.id = pid <;> simp [h]
  · intro p' hp'
    rw [update_total_votes_polls] at hp'
    obtain ⟨p, hp, rfl⟩ := List.mem_map.mp hp'
    by_cases h : p.id = pid
    · simp only [h, beq_self_eq_true, if_true]
      show countPollVotes db pid = countPollVotes (Poll.update_total_votes db pid) pid
      rfl
    · simp only [beq_iff_eq, h, if_false]
      exact hpa p hp

lemma reconcile_inv (db : DB) (pid : Nat) (hInv : Inv db) :
    Inv (reconcile db pid) := by
  unfold reconcile
  apply update_total_votes_inv
  generalize db.options.filter (fun o => o.poll == pid) = l
  induction l generalizing db with
  | nil => exact hInv
  | cons o t ih => exact ih _ (update_vote_count_inv db o.id hInv)

/-! ### The vote-cast path -/

lemma freshVoteId_gt (db : DB) : ∀ w ∈ db.votes, w.id < freshVoteId db := by
  show ∀ w ∈ db.votes, w.id < db.votes.foldr (fun v m => max (v.id + 1) m) 0
  induction db.votes with
  | nil => intro w hw; simp at hw
  | cons v t ih =>
    intro w hw
    rcases List.mem_cons.mp hw with rfl | hwt
    · exact Nat.lt_of_lt_of_le (Nat.lt_succ_self _) (le_max_left _ _)
    · exact Nat.lt_of_lt_of_le (ih w hwt) (le_max_right _ _)

lemma findPollById_spec {db : DB} {pid : Nat} {poll : Poll}
    (h : findPollById db pid = some poll) : poll ∈ db.polls ∧ poll.id = pid := by
  unfold findPollById at h
  refine ⟨List.mem_of_find?_eq_some h, ?_⟩
  simpa using List.find?_some h

lemma findOption_spec {db : DB} {pid : Nat} {text : String} {opt : PollOption}
    (h : findOption db pid text = some opt) : opt ∈ db.options ∧ opt.poll = pid := by
  unfold findOption at h
  refine ⟨List.mem_of_find?_eq_some h, ?_⟩
  have := List.find?_some h
  simp only [Bool.and_eq_true, beq_iff_eq] at this
  exact this.1

lemma cast_vote_created {db : DB} {now pid : Nat} {req : Request} {text : String}
    {poll : Poll} {opt : PollOption}
    (hp : findPollById db pid = some poll)
    (ho : findOption db pid text = some opt)
    (hv : validate db now poll req = none) :
    cast_vote db now pid req text
      = ((VoteSerializer.create db poll req opt).1,
          .created (VoteSerializer.create db poll req opt).2) := by
  have hpid : poll.id = pid := (findPollById_spec hp).2
  have ho' : findOption db poll.id text = some opt := by rw [hpid]; exact ho
  unfold findPollById at hp
  unfold cast_vote
  simp only [hp, ho', hv]

lemma cast_vote_rejected {db : DB} {now pid : Nat} {req : Request} {text : String}
    {poll : Poll} {opt : PollOption} {e : VoteError}
    (hp : findPollById db pid = some poll)
    (ho : findOption db pid text = some opt)
    (hv : validate db now poll req = some e) :
    cast_vote db now pid req text = (db, .rejected e) := by
  have hpid : poll.id = pid := (findPollById_spec hp).2
  have ho' : findOption db poll.id text = some opt := by rw [hpid]; exact ho
  unfold findPollById at hp
  unfold cast_vote
  simp only [hp, ho', hv]

lemma cast_vote_notFound {db : DB} {now pid : Nat} {req : Request} {text : String}
    (hp : findPollById db pid = none) :
    cast_vote db now pid req text = (db, .notFound) := by
  unfold findPollById at hp
  unfold cast_vote
  simp only [hp]

lemma cast_vote_invalidOption {db : DB} {now pid : Nat} {req : Request} {text : String}
    {poll : Poll} (hp : findPollById db pid = some poll)
    (ho : findOption db pid text = none) :
    cast_vote db now pid req text = (db, .rejected .invalidOption) := by
  have hpid : poll.id = pid := (findPollById_spec hp).2
  have ho' : findOption db poll.id text = none := by rw [hpid]; exact ho
  unfold findPollById at hp
  unfold cast_vote
  simp only [hp, ho']

lemma cast_vote_inv (db : DB) (now pid : Nat) (req : Request) (text : String)
    (hInv : Inv db) : Inv (cast_vote db now pid req text).1 := by
  cases hfp : findPollById db pid with
  | none =>
    rw [cast_vote_notFound hfp]
    exact hInv
  | some poll =>
    cases hfo : findOption db pid text with
    | none =>
      rw [cast_vote_invalidOption hfp hfo]
      exact hInv
    | some opt =>
      cases hv : validate db now poll req with
      | some e =>
        rw [cast_vote_rejected hfp hfo hv]
        exact hInv
      | none =>
        rw [cast_vote_created hfp hfo hv]
        show Inv (Vote.save db _)
        apply save_inv db _ hInv
        · intro w hw
          exact Nat.ne_of_lt (freshVoteId_gt db w hw)
        · obtain ⟨hm, hpl⟩ := findOption_spec hfo
          have hpid : poll.id = pid := (findPollById_spec hfp).2
          exact ⟨opt, hm, rfl, hpl.trans hpid.symm⟩

/-! ### Claim theorems: counter consistency -/

/-- **C1.** For every poll, after each completed core operation — casting a
vote through the endpoint, deleting a vote, or reconciling the counters —
the poll's cached `total_votes` equals the sum of its options' cached
`vote_count`, and both equal the number of `Vote` records referencing the
poll (given a well-formed pre-state satisfying the same invariant). -/
theorem C1_counters_consistent (db : DB) (now pid rpid : Nat) (req : Request)
    (text : String) (v : Vote) (hInv : Inv db) (hv : v ∈ db.votes) :
    (∀ p ∈ (cast_vote db now pid req text).1.polls,
        pollConsistent (cast_vote db now pid req text).1 p) ∧
    (∀ p ∈ (Vote.delete db v).polls, pollConsistent (Vote.delete db v) p) ∧
    (∀ p ∈ (reconcile db rpid).polls, pollConsistent (reconcile db rpid) p) :=
  ⟨inv_pollConsistent _ (cast_vote_inv db now pid req text hInv),
   inv_pollConsistent _ (delete_inv db v hInv hv),
   inv_pollConsistent _ (reconcile_inv db rpid hInv)⟩

/-! ### Claim C2: effect of one admitted vote on the cached counters -/

lemma save_option_count (db : DB) (v : Vote) (opt : PollOption)
    (hon : (db.options.map PollOption.id).Nodup) (hom : opt ∈ db.options)
    (hvo : v.option = opt.id)
    (hacc : opt.vote_count = countOptionVotes db opt.id) :
    findOptionById (Vote.save db v) opt.id
      = some { opt with vote_count := opt.vote_count + 1 } := by
  unfold findOptionById
  rw [save_options, find?_map_pres]
  · rw [find?_key_of_mem db.options PollOption.id hon opt hom]
    rw [Option.map_some']
    have hcond : (opt.id == v.option) = true := by
      rw [hvo]
      exact beq_self_eq_true _
    rw [if_pos hcond]
    have hc : (db.votes ++ [v]).countP (fun w => w.option == v.option)
        = opt.vote_count + 1 := by
      rw [List.countP_append]
      have h1 : ([v] : List Vote).countP (fun w => w.option == v.option) = 1 := by
        simp [List.countP_cons]
      have h2 : db.votes.countP (fun w => w.option == v.option)
          = countOptionVotes db opt.id := by
        rw [hvo]
        rfl
      rw [h1, h2, ← hacc]
    rw [hc]
  · intro a
    by_cases hc : a.id = v.option <;> simp [hc]

lemma save_poll_total (db : DB) (v : Vote) (poll : Poll)
    (hpn : (db.polls.map Poll.id).Nodup) (hpm : poll ∈ db.polls)
    (hvp : v.poll = poll.id)
    (hacc : poll.total_votes = countPollVotes db poll.id) :
    findPollById (Vote.save db v) poll.id
      = some { poll with total_votes := poll.total_votes + 1 } := by
  unfold findPollById
  rw [save_polls, find?_map_pres]
  · rw [find?_key_of_mem db.polls Poll.id hpn poll hpm]
    rw [Option.map_some']
    have hcond : (poll.id == v.poll) = true := by
      rw [hvp]
      exact beq_self_eq_true _
    rw [if_pos hcond]
    have hc : (db.votes ++ [v]).countP (fun w => w.poll == v.poll)
        = poll.total_votes + 1 := by
      rw [List.countP_append]
      have h1 : ([v] : List Vote).countP (fun w => w.poll == v.poll) = 1 := by
        simp [List.countP_cons]
      have h2 : db.votes.countP (fun w => w.poll == v.poll)
          = countPollVotes db poll.id := by
        rw [hvp]
        rfl
      rw [h1, h2, ← hacc]
    rw [hc]
  · intro a
    by_cases hc : a.id = v.poll <;> simp [hc]

lemma save_frame_options (db : DB) (v : Vote) (o : PollOption)
    (ho : o ∈ db.options) (hne : o.id ≠ v.option) :
    o ∈ (Vote.save db v).options := by
  rw [save_options]
  have hgo : (if o.id == v.option then
      { o with vote_count := (db.votes ++ [v]).countP (fun w => w.option == v.option) }
      else o) = o := if_neg (by simpa using hne)
  have := List.mem_map_of_mem (fun o => if o.id == v.option then
      { o with vote_count := (db.votes ++ [v]).countP (fun w => w.option == v.option) }
      else o) ho
  simp only [hgo] at this
  exact this

/-- **C2.** An admitted vote (`cast_vote` reaching the ledger append)
increments the chosen option's cached `vote_count` by exactly one and the
owning poll's cached `total_votes` by exactly one, as part of the same
`Vote.save`, and leaves every other option row unchanged. -/
theorem C2_append_increments (db : DB) (now pid : Nat) (req : Request)
    (text : String) (poll : Poll) (opt : PollOption) (hInv : Inv db)
    (hp : findPollById db pid = some poll)
    (ho : findOption db pid text = some opt)
    (hv : validate db now poll req = none) :
    ∃ v : Vote,
      cast_vote db now pid req text = (Vote.save db v, .created v) ∧
      v.poll = pid ∧ v.option = opt.id ∧
      findOptionById (Vote.save db v) opt.id
        = some { opt with vote_count := opt.vote_count + 1 } ∧
      findPollById (Vote.save db v) pid
        = some { poll with total_votes := poll.total_votes + 1 } ∧
      (∀ o ∈ db.options, o.id ≠ opt.id → o ∈ (Vote.save db v).options) := by
  obtain ⟨⟨hpn, hon, hvn⟩, hwf, hoa, hpa⟩ := hInv
  have hpid : poll.id = pid := (findPollById_spec hp).2
  have hpm : poll ∈ db.polls := (findPollById_spec hp).1
  obtain ⟨hom, hopl⟩ := findOption_spec ho
  refine ⟨(VoteSerializer.create db poll req opt).2, ?_, ?_, rfl, ?_, ?_, ?_⟩
  · rw [cast_vote_created hp ho hv]
    rfl
  · exact hpid
  · exact save_option_count db _ opt hon hom rfl (hoa opt hom)
  · rw [← hpid]
    exact save_poll_total db _ poll hpn hpm rfl (hpa poll hpm)
  · intro o hoo hne
    exact save_frame_options db _ o hoo hne

/-- Witness for C2: an authenticated user casts a fresh vote for "Dogs". -/
theorem C2_append_increments_witness :
    Inv dbW ∧ findPollById dbW 1 = some pollW ∧
    findOption dbW 1 "Dogs" = some optDogsW ∧
    validate dbW 0 pollW reqW = none ∧
    (∃ v : Vote,
      cast_vote dbW 0 1 reqW "Dogs" = (Vote.save dbW v, .created v) ∧
      v.poll = 1 ∧ v.option = optDogsW.id ∧
      findOptionById (Vote.save dbW v) optDogsW.id
        = some { optDogsW with vote_count := optDogsW.vote_count + 1 } ∧
      findPollById (Vote.save dbW v) 1
        = some { pollW with total_votes := pollW.total_votes + 1 } ∧
      (∀ o ∈ dbW.options, o.id ≠ optDogsW.id → o ∈ (Vote.save dbW v).options)) :=
  ⟨by decide, by decide, by decide, by decide,
   C2_append_increments dbW 0 1 reqW "Dogs" pollW optDogsW
     (by decide) (by decide) (by decide) (by decide)⟩

/-- Witness for C1 at a concrete database, request and vote. -/
theorem C1_counters_consistent_witness :
    Inv dbW ∧ voteW ∈ dbW.votes ∧
    ((∀ p ∈ (cast_vote dbW 0 1 reqW "Dogs").1.polls,
        pollConsistent (cast_vote dbW 0 1 reqW "Dogs").1 p) ∧
     (∀ p ∈ (Vote.delete dbW voteW).polls, pollConsistent (Vote.delete dbW voteW) p) ∧
     (∀ p ∈ (reconcile dbW 1).polls, pollConsistent (reconcile dbW 1) p)) :=
  ⟨by decide, by decide,
   C1_counters_consistent dbW 0 1 1 reqW "Dogs" voteW (by decide) (by decide)⟩

/-! ### Claims C3, C4, C6: the validation rules -/

lemma addr_check_iff (db : DB) (poll : Poll) (req : Request) :
    (truthy (get_client_ip req) &&
        db.votes.any (fun v => v.poll == poll.id && v.voter_ip == get_client_ip req)) = true
      ↔ ∃ v ∈ db.votes, v.poll = poll.id ∧ sharesAddress req v := by
  cases hip : get_client_ip req with
  | none =>
    simp only [hip, truthy, Bool.false_and, Bool.false_eq_true, false_iff]
    rintro ⟨v, hv, hpoll, a, hne, hca, hva⟩
    rw [hip] at hca
    exact Option.noConfusion hca
  | some a =>
    simp only [hip, truthy, Bool.and_eq_true, List.any_eq_true, beq_iff_eq,
      decide_eq_true_eq, sharesAddress]
    constructor
    · rintro ⟨hne, v, hv, hpoll, hipv⟩
      exact ⟨v, hv, hpoll, a, hne, rfl, hipv⟩
    · rintro ⟨v, hv, hpoll, a', hne, ha', hipv⟩
      obtain rfl : a = a' := Option.some.inj ha'
      exact ⟨hne, v, hv, hpoll, hipv⟩

lemma sess_check_iff (db : DB) (poll : Poll) (req : Request) :
    (truthy req.session_key &&
        db.votes.any (fun v => v.poll == poll.id && v.voter_session == req.session_key)) = true
      ↔ ∃ v ∈ db.votes, v.poll = poll.id ∧ sharesSession req v := by
  cases hsk : req.session_key with
  | none =>
    simp only [hsk, truthy, Bool.false_and, Bool.false_eq_true, false_iff]
    rintro ⟨v, hv, hpoll, a, hne, hca, hva⟩
    rw [hsk] at hca
    exact Option.noConfusion hca
  | some a =>
    simp only [hsk, truthy, Bool.and_eq_true, List.any_eq_true, beq_iff_eq,
      decide_eq_true_eq, sharesSession]
    constructor
    · rintro ⟨hne, v, hv, hpoll, hipv⟩
      exact ⟨v, hv, hpoll, a, hne, rfl, hipv⟩
    · rintro ⟨v, hv, hpoll, a', hne, ha', hipv⟩
      obtain rfl : a = a' := Option.some.inj ha'
      exact ⟨hne, v, hv, hpoll, hipv⟩

/-- **C3.** On an active, unexpired poll that forbids multiple votes, an
anonymous submission is rejected as a duplicate exactly when some existing
vote for the poll shares its (truthy) client address **or** its (truthy)
session key, and is admitted exactly when it shares neither with any
existing vote for the poll. -/
theorem C3_anonymous_or_match (db : DB) (now : Nat) (poll : Poll) (req : Request)
    (hanon : req.user = none)
    (hmulti : poll.allow_multiple_votes = false)
    (hcv : poll.can_vote now = true) :
    (validate db now poll req = some .alreadyVoted ↔
      ∃ v ∈ db.votes, v.poll = poll.id ∧ (sharesAddress req v ∨ sharesSession req v)) ∧
    (validate db now poll req = none ↔
      ∀ v ∈ db.votes, v.poll = poll.id → ¬ sharesAddress req v ∧ ¬ sharesSession req v) := by
  have haddr := addr_check_iff db poll req
  have hsess := sess_check_iff db poll req
  unfold validate
  simp only [hcv, hmulti, hanon, Bool.not_true, Bool.false_eq_true, if_false]
  by_cases h1 : (truthy (get_client_ip req) &&
      db.votes.any (fun v => v.poll == poll.id && v.voter_ip == get_client_ip req)) = true
  · rw [if_pos h1]
    obtain ⟨v, hv, hpoll, hsh⟩ := haddr.mp h1
    constructor
    · constructor
      · intro _
        exact ⟨v, hv, hpoll, Or.inl hsh⟩
      · intro _
        rfl
    · constructor
      · intro h
        exact Option.noConfusion h
      · intro hall
        exact absurd hsh (hall v hv hpoll).1
  · rw [if_neg h1]
    by_cases h2 : (truthy req.session_key &&
        db.votes.any (fun v => v.poll == poll.id && v.voter_session == req.session_key)) = true
    · rw [if_pos h2]
      obtain ⟨v, hv, hpoll, hsh⟩ := hsess.mp h2
      constructor
      · constructor
        · intro _
          exact ⟨v, hv, hpoll, Or.inr hsh⟩
        · intro _
          rfl
      · constructor
        · intro h
          exact Option.noConfusion h
        · intro hall
          exact absurd hsh (hall v hv hpoll).2
    · rw [if_neg h2]
      constructor
      · constructor
        · intro h
          exact Option.noConfusion h
        · rintro ⟨v, hv, hpoll, hsh | hsh⟩
          · exact absurd (haddr.mpr ⟨v, hv, hpoll, hsh⟩) h1
          · exact absurd (hsess.mpr ⟨v, hv, hpoll, hsh⟩) h2
      · constructor
        · intro _ v hv hpoll
          constructor
          · intro hsh
            exact absurd (haddr.mpr ⟨v, hv, hpoll, hsh⟩) h1
          · intro hsh
            exact absurd (hsess.mpr ⟨v, hv, hpoll, hsh⟩) h2
        · intro _
          rfl

/-- Witness for C3: an anonymous request against `dbW`. -/
theorem C3_anonymous_or_match_witness :
    reqAnonW.user = none ∧ pollW.allow_multiple_votes = false ∧
    pollW.can_vote 0 = true ∧
    ((validate dbW 0 pollW reqAnonW = some .alreadyVoted ↔
      ∃ v ∈ dbW.votes, v.poll = pollW.id ∧
        (sharesAddress reqAnonW v ∨ sharesSession reqAnonW v)) ∧
     (validate dbW 0 pollW reqAnonW = none ↔
      ∀ v ∈ dbW.votes, v.poll = pollW.id →
        ¬ sharesAddress reqAnonW v ∧ ¬ sharesSession reqAnonW v)) :=
  ⟨by decide, by decide, by decide,
   C3_anonymous_or_match dbW 0 pollW reqAnonW (by decide) (by decide) (by decide)⟩

/-- **C4 counterexample.** On an expired poll that forbids multiple votes,
a second vote attempt by the same authenticated identity is rejected with
the `pollExpired` reason, not `alreadyVoted`: the eligibility check runs
before the duplicate check. -/
theorem C4_counterexample :
    pollExpW.allow_multiple_votes = false ∧
    reqExpW.user = some 5 ∧
    (∃ v ∈ dbExpW.votes, v.poll = 2 ∧ v.voter = some 5) ∧
    cast_vote dbExpW 10 2 reqExpW "Swim" = (dbExpW, .rejected .pollExpired) ∧
    cast_vote dbExpW 10 2 reqExpW "Swim" ≠ (dbExpW, .rejected .alreadyVoted) := by
  refine ⟨by decide, by decide, by decide, by decide, by decide⟩

/-- **C4** (amended: provided the poll is still accepting votes, i.e. it is
active and unexpired). A second vote attempt by the same authenticated
identity against a poll with `allow_multiple_votes = false` is rejected
with the `alreadyVoted` reason, regardless of which of the poll's options
the second attempt chooses. -/
theorem C4_authenticated_duplicate (db : DB) (now pid : Nat) (req : Request)
    (text : String) (poll : Poll) (opt : PollOption) (u : Nat)
    (hp : findPollById db pid = some poll)
    (hu : req.user = some u)
    (hmulti : poll.allow_multiple_votes = false)
    (hcv : poll.can_vote now = true)
    (hprior : ∃ v ∈ db.votes, v.poll = poll.id ∧ v.voter = some u)
    (ho : findOption db pid text = some opt) :
    cast_vote db now pid req text = (db, .rejected .alreadyVoted) := by
  apply cast_vote_rejected hp ho
  unfold validate
  simp only [hcv, hmulti, hu, Bool.not_true, Bool.false_eq_true, if_false]
  rw [if_pos]
  simp only [List.any_eq_true, Bool.and_eq_true, beq_iff_eq]
  obtain ⟨v, hv, h1, h2⟩ := hprior
  exact ⟨v, hv, h1, h2⟩

/-- Witness for the amended C4: user 5 tries to vote again (for the other
option) on the still-active poll of `dbW`. -/
theorem C4_authenticated_duplicate_witness :
    findPollById dbW 1 = some pollW ∧
    pollW.allow_multiple_votes = false ∧ pollW.can_vote 0 = true ∧
    (∃ v ∈ dbW.votes, v.poll = pollW.id ∧ v.voter = some 5) ∧
    findOption dbW 1 "Dogs" = some optDogsW ∧
    cast_vote dbW 0 1 reqUser5W "Dogs" = (dbW, .rejected .alreadyVoted) :=
  ⟨by decide, by decide, by decide, by decide, by decide,
   C4_authenticated_duplicate dbW 0 1 reqUser5W "Dogs" pollW optDogsW 5
     (by decide) (by decide) (by decide) (by decide) (by decide) (by decide)⟩

/-- **C6.** On a poll whose `expires_at` is set and in the past, every vote
attempt naming one of the poll's options is rejected with the
`pollExpired` reason — independent of the request's identity and of any
prior voting history — and the database is left unchanged (no `Vote` row
is created). -/
theorem C6_expired_poll_rejected (db : DB) (now pid t : Nat) (req : Request)
    (text : String) (poll : Poll) (opt : PollOption)
    (hp : findPollById db pid = some poll)
    (hexp : poll.expires_at = some t) (ht : t < now)
    (ho : findOption db pid text = some opt) :
    cast_vote db now pid req text = (db, .rejected .pollExpired) := by
  apply cast_vote_rejected hp ho
  have hie : poll.is_expired now = true := by
    unfold Poll.is_expired
    rw [hexp]
    simpa using ht
  have hcv : poll.can_vote now = false := by
    unfold Poll.can_vote
    rw [hie]
    simp
  unfold validate
  simp [hcv, hie]

/-- Witness for C6: an anonymous attempt on the expired poll of `dbExpW`. -/
theorem C6_expired_poll_rejected_witness :
    findPollById dbExpW 2 = some pollExpW ∧
    pollExpW.expires_at = some 5 ∧ 5 < 10 ∧
    findOption dbExpW 2 "Swim" = some optSwimW ∧
    cast_vote dbExpW 10 2 reqEmptyW "Swim" = (dbExpW, .rejected .pollExpired) :=
  ⟨by decide, by decide, by decide, by decide,
   C6_expired_poll_rejected dbExpW 10 2 5 reqEmptyW "Swim" pollExpW optSwimW
     (by decide) (by decide) (by decide) (by decide)⟩


/-! ### Claim C5: the percentage law of result snapshots -/

lemma mem_insertSorted (le : PollOption → PollOption → Bool) (a x : PollOption)
    (l : List PollOption) : x ∈ insertSorted le a l ↔ x = a ∨ x ∈ l := by
  induction l with
  | nil => simp [insertSorted]
  | cons b t ih =>
    unfold insertSorted
    by_cases h : le a b
    · simp [h]
    · rw [if_neg h]
      simp only [List.mem_cons, ih]
      tauto

lemma mem_sortByLE (le : PollOption → PollOption → Bool) (x : PollOption)
    (l : List PollOption) : x ∈ sortByLE le l ↔ x ∈ l := by
  induction l with
  | nil => simp [sortByLE]
  | cons a t ih => simp [sortByLE, mem_insertSorted, ih]

lemma round2_zero : round2 0 = 0 := by
  simp [round2]

/-- **C5.** Every entry of a poll's result snapshot carries the percentage
`vote_count / total_votes * 100` rounded to two decimals when the cached
total is positive, and `0` when the cached total is zero; the stored
`PollResult` payload lists the same entries, and every option of the poll
is reported. -/
theorem C5_percentage_law (db : DB) (now : Nat) (poll : Poll) :
    (0 < poll.total_votes →
      ∀ e ∈ (generate_poll_results db now poll).options,
        e.percentage = round2 ((e.vote_count : ℚ) / (poll.total_votes : ℚ) * 100)) ∧
    (poll.total_votes = 0 →
      ∀ e ∈ (generate_poll_results db now poll).options, e.percentage = 0) ∧
    (computeResultsData db now poll).options = (generate_poll_results db now poll).options ∧
    (∀ o ∈ db.options, o.poll = poll.id →
      ∃ e ∈ (generate_poll_results db now poll).options,
        e.id = o.id ∧ e.vote_count = o.vote_count ∧
        e.percentage = pct o.vote_count poll.total_votes) := by
  refine ⟨?_, ?_, rfl, ?_⟩
  · intro h e he
    simp only [generate_poll_results, List.mem_map] at he
    obtain ⟨o, ho, rfl⟩ := he
    simp only [optionEntry, pct, if_pos h]
  · intro h e he
    simp only [generate_poll_results, List.mem_map] at he
    obtain ⟨o, ho, rfl⟩ := he
    simp only [optionEntry, pct, h, Nat.lt_irrefl, if_false]
    exact round2_zero
  · intro o ho hop
    refine ⟨optionEntry poll.total_votes o, ?_, rfl, rfl, rfl⟩
    simp only [generate_poll_results]
    apply List.mem_map_of_mem
    unfold pollOptions
    rw [mem_sortByLE]
    simp [List.mem_filter, ho, hop]

/-- Witness for C5 on the one-vote poll of `dbW`. -/
theorem C5_percentage_law_witness :
    0 < pollW.total_votes ∧
    (∀ e ∈ (generate_poll_results dbW 0 pollW).options,
      e.percentage = round2 ((e.vote_count : ℚ) / (pollW.total_votes : ℚ) * 100)) :=
  ⟨by decide, (C5_percentage_law dbW 0 pollW).1 (by decide)⟩

/-! ### Claim C7: the ledger is append-only -/

lemma update_results_pov (db : DB) (now pid : Nat) :
    (PollResult.update_results db now pid).polls = db.polls ∧
    (PollResult.update_results db now pid).options = db.options ∧
    (PollResult.update_results db now pid).votes = db.votes := by
  unfold PollResult.update_results
  split
  · exact ⟨rfl, rfl, rfl⟩
  · exact ⟨rfl, rfl, rfl⟩

lemma update_one_pov (db : DB) (now : Nat) (poll : Poll) (force : Bool) :
    (Command.update_poll_results db now poll force).1.polls = db.polls ∧
    (Command.update_poll_results db now poll force).1.options = db.options ∧
    (Command.update_poll_results db now poll force).1.votes = db.votes := by
  unfold Command.update_poll_results
  split
  · exact ⟨rfl, rfl, rfl⟩
  · refine ⟨?_, ?_, ?_⟩
    · rw [(update_results_pov _ _ _).1]
      split <;> rfl
    · rw [(update_results_pov _ _ _).2.1]
      split <;> rfl
    · rw [(update_results_pov _ _ _).2.2]
      split <;> rfl

lemma handle_fold_pov (now : Nat) (force : Bool) (l : List Poll) :
    ∀ acc : DB × Nat,
      ((l.foldl (fun acc p =>
          let r := Command.update_poll_results acc.1 now p force
          (r.1, acc.2 + (if r.2 then 1 else 0))) acc)).1.polls = acc.1.polls ∧
      ((l.foldl (fun acc p =>
          let r := Command.update_poll_results acc.1 now p force
          (r.1, acc.2 + (if r.2 then 1 else 0))) acc)).1.options = acc.1.options ∧
      ((l.foldl (fun acc p =>
          let r := Command.update_poll_results acc.1 now p force
          (r.1, acc.2 + (if r.2 then 1 else 0))) acc)).1.votes = acc.1.votes := by
  induction l with
  | nil => intro acc; exact ⟨rfl, rfl, rfl⟩
  | cons p t ih =>
    intro acc
    rw [List.foldl_cons]
    obtain ⟨h1, h2, h3⟩ := ih _
    obtain ⟨g1, g2, g3⟩ := update_one_pov acc.1 now p force
    exact ⟨h1.trans g1, h2.trans g2, h3.trans g3⟩

lemma handle_all_pov (db : DB) (now : Nat) (force : Bool) :
    (Command.handle_all db now force).1.polls = db.polls ∧
    (Command.handle_all db now force).1.options = db.options ∧
    (Command.handle_all db now force).1.votes = db.votes := by
  unfold Command.handle_all
  exact handle_fold_pov now force _ (db, 0)

/-- **C7.** Vote records are immutable and never deleted by the vote-cast
or result-serving operations: a cast leaves the existing ledger as a
prefix (appending at most one new record), and the results endpoint and
the refresh command leave the ledger exactly unchanged. -/
theorem C7_ledger_append_only (db : DB) (now pid : Nat) (req : Request)
    (text : String) (poll : Poll) (force : Bool) :
    (∃ tail, (cast_vote db now pid req text).1.votes = db.votes ++ tail) ∧
    (poll_results_view db now pid).1.votes = db.votes ∧
    (Command.update_poll_results db now poll force).1.votes = db.votes ∧
    (Command.handle_all db now force).1.votes = db.votes := by
  refine ⟨?_, ?_, (update_one_pov db now poll force).2.2,
    (handle_all_pov db now force).2.2⟩
  · cases hfp : findPollById db pid with
    | none =>
      refine ⟨[], ?_⟩
      rw [cast_vote_notFound hfp]
      simp
    | some poll' =>
      cases hfo : findOption db pid text with
      | none =>
        refine ⟨[], ?_⟩
        rw [cast_vote_invalidOption hfp hfo]
        simp
      | some opt =>
        cases hv : validate db now poll' req with
        | some e =>
          refine ⟨[], ?_⟩
          rw [cast_vote_rejected hfp hfo hv]
          simp
        | none =>
          refine ⟨[(VoteSerializer.create db poll' req opt).2], ?_⟩
          rw [cast_vote_created hfp hfo hv]
          rfl
  · unfold poll_results_view
    split
    · rfl
    · split
      · rfl
      · rfl


/-! ### Claims C9 and C10: identity handling -/

lemma get_client_ip_none {req : Request} (hxff : req.x_forwarded_for = none)
    (hra : req.remote_addr = none) : get_client_ip req = none := by
  unfold get_client_ip
  rw [hxff]
  exact hra

lemma validate_empty_identity (db : DB) (now : Nat) (poll : Poll) (req : Request)
    (hcv : poll.can_vote now = true) (hu : req.user = none)
    (hxff : req.x_forwarded_for = none) (hra : req.remote_addr = none)
    (hsk : req.session_key = none) :
    validate db now poll req = none := by
  have hip : get_client_ip req = none := get_client_ip_none hxff hra
  unfold validate
  simp only [hcv, hu, Bool.not_true, Bool.false_eq_true, if_false]
  by_cases hm : poll.allow_multiple_votes
  · simp [hm]
  · simp [hm, hip, hsk, truthy]

lemma findPollById_save (db : DB) (v : Vote) (pid : Nat) :
    findPollById (Vote.save db v) pid
      = (findPollById db pid).map (fun p =>
          if p.id == v.poll then
            { p with total_votes := (db.votes ++ [v]).countP (fun w => w.poll == v.poll) }
          else p) := by
  unfold findPollById
  rw [save_polls, find?_map_pres]
  intro a
  by_cases hc : a.id = v.poll <;> simp [hc]

lemma findOption_save (db : DB) (v : Vote) (pid : Nat) (text : String) :
    findOption (Vote.save db v) pid text
      = (findOption db pid text).map (fun o =>
          if o.id == v.option then
            { o with vote_count := (db.votes ++ [v]).countP (fun w => w.option == v.option) }
          else o) := by
  unfold findOption
  rw [save_options, find?_map_pres]
  intro a
  by_cases hc : a.id = v.option <;> simp [hc]

/-- **C9.** A vote request with no authenticated user, no source address
and no session token is not rejected as unidentifiable: on a poll passing
`can_vote` the duplicate check admits it, the created `Vote` row has
`voter`, `voter_ip` and `voter_session` all unset, and an immediately
repeated identical request is admitted again (even though
`allow_multiple_votes` may be false), so each such request appends one
more vote. -/
theorem C9_unidentifiable_admitted (db : DB) (now pid : Nat) (text : String)
    (poll : Poll) (opt : PollOption) (req : Request)
    (hp : findPollById db pid = some poll)
    (hcv : poll.can_vote now = true)
    (ho : findOption db pid text = some opt)
    (hu : req.user = none) (hxff : req.x_forwarded_for = none)
    (hra : req.remote_addr = none) (hsk : req.session_key = none) :
    ∃ v1 : Vote,
      cast_vote db now pid req text = (Vote.save db v1, .created v1) ∧
      v1.voter = none ∧ v1.voter_ip = none ∧ v1.voter_session = none ∧
      ∃ v2 : Vote,
        cast_vote (Vote.save db v1) now pid req text
          = (Vote.save (Vote.save db v1) v2, .created v2) ∧
        v2.voter = none ∧ v2.voter_ip = none ∧ v2.voter_session = none ∧
        (Vote.save (Vote.save db v1) v2).votes = db.votes ++ [v1, v2] := by
  have hip : get_client_ip req = none := get_client_ip_none hxff hra
  have hval : validate db now poll req = none :=
    validate_empty_identity db now poll req hcv hu hxff hra hsk
  set v1 : Vote := (VoteSerializer.create db poll req opt).2 with hv1
  refine ⟨v1, ?_, hu, ?_, ?_, ?_⟩
  · rw [cast_vote_created hp ho hval]
    rfl
  · show (if req.user.isSome then none else get_client_ip req) = none
    rw [hu]
    simpa using hip
  · show (if req.user.isSome then none else req.session_key) = none
    rw [hu]
    simpa using hsk
  · set db1 : DB := Vote.save db v1 with hdb1
    set poll1 : Poll := (if poll.id == v1.poll then
        { poll with total_votes := (db.votes ++ [v1]).countP (fun w => w.poll == v1.poll) }
      else poll) with hpoll1
    set opt1 : PollOption := (if opt.id == v1.option then
        { opt with vote_count := (db.votes ++ [v1]).countP (fun w => w.option == v1.option) }
      else opt) with hopt1
    have hp1 : findPollById db1 pid = some poll1 := by
      rw [hdb1, findPollById_save, hp]
      rfl
    have ho1 : findOption db1 pid text = some opt1 := by
      rw [hdb1, findOption_save, ho]
      rfl
    have hfields : poll1.is_active = poll.is_active ∧ poll1.expires_at = poll.expires_at := by
      rw [hpoll1]
      by_cases hc : poll.id = v1.poll <;> simp [hc]
    have hcv1 : poll1.can_vote now = true := by
      unfold Poll.can_vote Poll.is_expired at hcv ⊢
      rw [hfields.1, hfields.2]
      exact hcv
    have hval1 : validate db1 now poll1 req = none :=
      validate_empty_identity db1 now poll1 req hcv1 hu hxff hra hsk
    refine ⟨(VoteSerializer.create db1 poll1 req opt1).2, ?_, hu, ?_, ?_, ?_⟩
    · rw [cast_vote_created hp1 ho1 hval1]
      rfl
    · show (if req.user.isSome then none else get_client_ip req) = none
      rw [hu]
      simpa using hip
    · show (if req.user.isSome then none else req.session_key) = none
      rw [hu]
      simpa using hsk
    · rw [save_votes, hdb1, save_votes, List.append_assoc]
      rfl

/-- Witness for C9: two identity-less requests against `dbW`, whose poll
forbids multiple votes. -/
theorem C9_unidentifiable_admitted_witness :
    findPollById dbW 1 = some pollW ∧ pollW.can_vote 0 = true ∧
    findOption dbW 1 "Cats" = some optCatsW ∧
    pollW.allow_multiple_votes = false ∧
    reqEmptyW.user = none ∧ reqEmptyW.remote_addr = none ∧
    reqEmptyW.session_key = none ∧
    (∃ v1 : Vote,
      cast_vote dbW 0 1 reqEmptyW "Cats" = (Vote.save dbW v1, .created v1) ∧
      v1.voter = none ∧ v1.voter_ip = none ∧ v1.voter_session = none ∧
      ∃ v2 : Vote,
        cast_vote (Vote.save dbW v1) 0 1 reqEmptyW "Cats"
          = (Vote.save (Vote.save dbW v1) v2, .created v2) ∧
        v2.voter = none ∧ v2.voter_ip = none ∧ v2.voter_session = none ∧
        (Vote.save (Vote.save dbW v1) v2).votes = dbW.votes ++ [v1, v2]) :=
  ⟨by decide, by decide, by decide, by decide, by decide, by decide, by decide,
   C9_unidentifiable_admitted dbW 0 1 "Cats" pollW optCatsW reqEmptyW
     (by decide) (by decide) (by decide) (by decide) (by decide) (by decide) (by decide)⟩

/-- **C10.** Duplicate detection never crosses identity channels: a vote
created from an authenticated request stores only the user reference
(address and session left unset); an anonymous submission against a poll
whose recorded votes carry no address and no session (as all
authenticated votes do) is admitted no matter what address or session the
submission carries; and an authenticated submission is rejected exactly
when some recorded vote bears the same user reference. -/
theorem C10_identity_channels (db : DB) (now : Nat) (poll : Poll)
    (req reqA : Request) (opt : PollOption) (u : Nat) :
    (req.user = some u →
      (VoteSerializer.create db poll req opt).2.voter = some u ∧
      (VoteSerializer.create db poll req opt).2.voter_ip = none ∧
      (VoteSerializer.create db poll req opt).2.voter_session = none) ∧
    (reqA.user = none → poll.allow_multiple_votes = false →
      poll.can_vote now = true →
      (∀ v ∈ db.votes, v.poll = poll.id → v.voter_ip = none ∧ v.voter_session = none) →
      validate db now poll reqA = none) ∧
    (req.user = some u → poll.allow_multiple_votes = false →
      poll.can_vote now = true →
      ((validate db now poll req = some .alreadyVoted ↔
          ∃ v ∈ db.votes, v.poll = poll.id ∧ v.voter = some u) ∧
       (validate db now poll req = none ↔
          ¬ ∃ v ∈ db.votes, v.poll = poll.id ∧ v.voter = some u))) := by
  refine ⟨?_, ?_, ?_⟩
  · intro hu
    exact ⟨hu, by simp [VoteSerializer.create, hu], by simp [VoteSerializer.create, hu]⟩
  · intro hanon hm hcv hall
    have haddr : ∀ a, (db.votes.any
        (fun v => v.poll == poll.id && v.voter_ip == some a)) = false := by
      intro a
      rw [List.any_eq_false]
      intro v hv
      simp only [Bool.and_eq_true, beq_iff_eq, not_and]
      intro hpl
      rw [(hall v hv hpl).1]
      simp
    have hsess : ∀ a, (db.votes.any
        (fun v => v.poll == poll.id && v.voter_session == some a)) = false := by
      intro a
      rw [List.any_eq_false]
      intro v hv
      simp only [Bool.and_eq_true, beq_iff_eq, not_and]
      intro hpl
      rw [(hall v hv hpl).2]
      simp
    unfold validate
    simp only [hcv, hanon, hm, Bool.not_true, Bool.false_eq_true, if_false]
    have h1 : (truthy (get_client_ip reqA) &&
        db.votes.any (fun v => v.poll == poll.id && v.voter_ip == get_client_ip reqA))
          = false := by
      cases hip : get_client_ip reqA with
      | none => simp [truthy]
      | some a =>
        rw [haddr a]
        simp
    have h2 : (truthy reqA.session_key &&
        db.votes.any (fun v => v.poll == poll.id && v.voter_session == reqA.session_key))
          = false := by
      cases hsk : reqA.session_key with
      | none => simp [truthy]
      | some b =>
        rw [hsess b]
        simp
    simp [h1, h2]
  · intro hu hm hcv
    have hcond : (db.votes.any (fun v => v.poll == poll.id && v.voter == some u)) = true
        ↔ ∃ v ∈ db.votes, v.poll = poll.id ∧ v.voter = some u := by
      simp [List.any_eq_true, Bool.and_eq_true, beq_iff_eq]
    unfold validate
    simp only [hcv, hm, hu, Bool.not_true, Bool.false_eq_true, if_false]
    by_cases hc : (db.votes.any (fun v => v.poll == poll.id && v.voter == some u)) = true
    · rw [if_pos hc]
      constructor
      · exact iff_of_true rfl (hcond.mp hc)
      · exact iff_of_false (fun h => Option.noConfusion h)
          (fun hn => hn (hcond.mp hc))
    · rw [if_neg hc]
      constructor
      · exact iff_of_false (fun h => Option.noConfusion h)
          (fun hex => hc (hcond.mpr hex))
      · exact iff_of_true rfl (fun hex => hc (hcond.mpr hex))


/-- Witness for C10: the authenticated vote of `dbW` stores no address or
session, so a colliding anonymous request is admitted, while user 5's own
repeat attempt matches by user reference. -/
theorem C10_identity_channels_witness :
    reqW.user = some 6 ∧ reqAnonW.user = none ∧
    pollW.allow_multiple_votes = false ∧ pollW.can_vote 0 = true ∧
    (∀ v ∈ dbW.votes, v.poll = pollW.id → v.voter_ip = none ∧ v.voter_session = none) ∧
    ((VoteSerializer.create dbW pollW reqW optDogsW).2.voter = some 6 ∧
     (VoteSerializer.create dbW pollW reqW optDogsW).2.voter_ip = none ∧
     (VoteSerializer.create dbW pollW reqW optDogsW).2.voter_session = none) ∧
    validate dbW 0 pollW reqAnonW = none ∧
    ((validate dbW 0 pollW reqW = some .alreadyVoted ↔
        ∃ v ∈ dbW.votes, v.poll = pollW.id ∧ v.voter = some 6) ∧
     (validate dbW 0 pollW reqW = none ↔
        ¬ ∃ v ∈ dbW.votes, v.poll = pollW.id ∧ v.voter = some 6)) :=
  ⟨by decide, by decide, by decide, by decide, by decide,
   (C10_identity_channels dbW 0 pollW reqW reqAnonW optDogsW 6).1 (by decide),
   (C10_identity_channels dbW 0 pollW reqW reqAnonW optDogsW 6).2.1 (by decide)
     (by decide) (by decide) (by decide),
   (C10_identity_channels dbW 0 pollW reqW reqAnonW optDogsW 6).2.2 (by decide)
     (by decide) (by decide)⟩


/-! ### Claim C8: the bulk refresh command -/

lemma find?_filter_of_imp {α : Type} (l : List α) (q r : α → Bool)
    (h : ∀ a, q a = true → r a = true) : (l.filter r).find? q = l.find? q := by
  induction l with
  | nil => rfl
  | cons a t ih =>
    by_cases hq : q a
    · rw [List.filter_cons_of_pos (h a hq), List.find?_cons_of_pos _ hq,
        List.find?_cons_of_pos _ hq]
    · by_cases hr : r a
      · rw [List.filter_cons_of_pos hr, List.find?_cons_of_neg _ hq,
          List.find?_cons_of_neg _ hq, ih]
      · rw [List.filter_cons_of_neg hr, List.find?_cons_of_neg _ hq, ih]

lemma cacheGet_cacheSet_self (d : DB) (k : Nat) (s : ResultSnapshot) :
    cacheGet (cacheSet d k s) k = some s := by
  unfold cacheGet cacheSet
  rw [List.find?_cons_of_pos _ (by simp)]
  rfl

lemma cacheGet_cacheSet_other (d : DB) (k pid : Nat) (s : ResultSnapshot)
    (h : pid ≠ k) : cacheGet (cacheSet d k s) pid = cacheGet d pid := by
  unfold cacheGet cacheSet
  rw [List.find?_cons_of_neg _ (by simpa using Ne.symm h)]
  rw [find?_filter_of_imp]
  intro a ha
  simp only [beq_iff_eq] at ha
  simp [bne_iff_ne, ha, h]

lemma cacheGet_update_results (d : DB) (now k pid : Nat) :
    cacheGet (PollResult.update_results d now k) pid = cacheGet d pid := by
  unfold PollResult.update_results
  split
  · rfl
  · rfl

lemma resultFor_update_results_other (d : DB) (now k pid : Nat) (h : pid ≠ k) :
    resultFor (PollResult.update_results d now k) pid = resultFor d pid := by
  unfold PollResult.update_results
  split
  · rfl
  · rename_i poll hpoll
    unfold resultFor
    show ((d.results.map _).find? _) = _
    rw [find?_map_pres]
    · cases hf : d.results.find? (fun r => r.poll == pid) with
      | none => rfl
      | some r =>
        have hr : r.poll = pid := by simpa using List.find?_some hf
        simp only [Option.map_some']
        rw [if_neg (by simp only [hr, beq_iff_eq]; exact h)]
    · intro a
      by_cases hc : a.poll = k <;> simp [hc]

lemma resultFor_update_results_self (d : DB) (now pid : Nat) (p : Poll)
    (hfind : d.polls.find? (fun x => x.id == pid) = some p)
    (r0 : PollResultRec) (hr0 : resultFor d pid = some r0) :
    resultFor (PollResult.update_results d now pid) pid
      = some { poll := pid, results_data := some (computeResultsData d now p),
               total_votes := p.total_votes } := by
  unfold resultFor at hr0
  have hr : r0.poll = pid := by simpa using List.find?_some hr0
  unfold PollResult.update_results
  rw [hfind]
  unfold resultFor
  show ((d.results.map _).find? _) = _
  rw [find?_map_pres]
  · rw [hr0]
    simp only [Option.map_some']
    rw [if_pos (by simp [hr])]
    rw [hr]
  · intro a
    by_cases hc : a.poll = pid <;> simp [hc]

lemma update_refresh_core (d0 : DB) (now : Nat) (p : Poll)
    (hfind : d0.polls.find? (fun x => x.id == p.id) = some p) :
    resultFor (PollResult.update_results
        (if (resultFor d0 p.id).isSome then d0
         else { d0 with results :=
            d0.results ++ [{ poll := p.id, results_data := none, total_votes := 0 }] })
        now p.id) p.id
      = some { poll := p.id, results_data := some (computeResultsData d0 now p),
               total_votes := p.total_votes } ∧
    cacheGet (PollResult.update_results
        (if (resultFor d0 p.id).isSome then d0
         else { d0 with results :=
            d0.results ++ [{ poll := p.id, results_data := none, total_votes := 0 }] })
        now p.id) p.id
      = cacheGet d0 p.id := by
  cases hr : resultFor d0 p.id with
  | some r0 =>
    rw [Option.isSome_some, if_pos rfl]
    exact ⟨resultFor_update_results_self d0 now p.id p hfind r0 hr,
      cacheGet_update_results d0 now p.id p.id⟩
  | none =>
    rw [Option.isSome_none, if_neg Bool.false_ne_true]
    have hrA : resultFor { d0 with results :=
        d0.results ++ [{ poll := p.id, results_data := none, total_votes := 0 }] } p.id
        = some { poll := p.id, results_data := none, total_votes := 0 } := by
      unfold resultFor at hr ⊢
      show (d0.results ++ _).find? _ = _
      rw [List.find?_append, hr, Option.none_or]
      rw [List.find?_cons_of_pos _ (by simp)]
    constructor
    · exact resultFor_update_results_self _ now p.id p hfind _ hrA
    · exact cacheGet_update_results _ now p.id p.id

lemma update_one_skipped (d : DB) (now : Nat) (p : Poll)
    (h : skipb d p = true) :
    Command.update_poll_results d now p false = (d, false) := by
  have hc : (!false && (match resultFor d p.id with
      | some pr => pr.total_votes == p.total_votes
      | none => false)) = true := by
    rw [Bool.not_false, Bool.true_and]
    exact h
  unfold Command.update_poll_results
  rw [if_pos hc]

lemma update_one_self (d : DB) (now : Nat) (p : Poll) (force : Bool)
    (hfind : d.polls.find? (fun x => x.id == p.id) = some p)
    (hskip : force = true ∨ skipb d p = false) :
    resultFor (Command.update_poll_results d now p force).1 p.id
      = some { poll := p.id, results_data := some (computeResultsData d now p),
               total_votes := p.total_votes } ∧
    cacheGet (Command.update_poll_results d now p force).1 p.id
      = some (generate_poll_results d now p) := by
  have hcond : (!force && (match resultFor d p.id with
      | some pr => pr.total_votes == p.total_votes
      | none => false)) = false := by
    rcases hskip with h | h
    · rw [h, Bool.not_true, Bool.false_and]
    · have h' : (match resultFor d p.id with
        | some pr => pr.total_votes == p.total_votes
        | none => false) = false := h
      rw [h', Bool.and_false]
  unfold Command.update_poll_results
  rw [if_neg (by rw [hcond]; exact Bool.false_ne_true)]
  have hcore := update_refresh_core (cacheSet d p.id (generate_poll_results d now p))
    now p hfind
  exact ⟨hcore.1, hcore.2.trans (cacheGet_cacheSet_self d p.id _)⟩

lemma update_one_other (d : DB) (now : Nat) (q : Poll) (force : Bool) (pid : Nat)
    (h : pid ≠ q.id) :
    resultFor (Command.update_poll_results d now q force).1 pid = resultFor d pid ∧
    cacheGet (Command.update_poll_results d now q force).1 pid = cacheGet d pid := by
  unfold Command.update_poll_results
  split
  · exact ⟨rfl, rfl⟩
  · constructor
    · rw [resultFor_update_results_other _ _ _ _ h]
      split
      · rfl
      · show resultFor { cacheSet d q.id _ with results := _ } pid = resultFor d pid
        unfold resultFor
        show ((cacheSet d q.id _).results ++ _).find? _ = _
        rw [List.find?_append]
        rw [List.find?_cons_of_neg _ (by simpa using Ne.symm h), List.find?_nil]
        show ((d.results.find? _).or none) = _
        rw [Option.or_none]
    · rw [cacheGet_update_results]
      split
      · exact cacheGet_cacheSet_other d q.id pid _ h
      · show cacheGet { cacheSet d q.id _ with results := _ } pid = cacheGet d pid
        rw [show cacheGet { cacheSet d q.id (generate_poll_results d now q) with
            results := (cacheSet d q.id (generate_poll_results d now q)).results
              ++ [{ poll := q.id, results_data := none, total_votes := 0 }] } pid
          = cacheGet (cacheSet d q.id (generate_poll_results d now q)) pid from rfl]
        exact cacheGet_cacheSet_other d q.id pid _ h


lemma fold_entries_frame (now : Nat) (force : Bool) (pid : Nat) (l : List Poll) :
    ∀ acc : DB × Nat, (∀ q ∈ l, q.id ≠ pid) →
      resultFor ((l.foldl (fun acc p =>
          let r := Command.update_poll_results acc.1 now p force
          (r.1, acc.2 + (if r.2 then 1 else 0))) acc)).1 pid = resultFor acc.1 pid ∧
      cacheGet ((l.foldl (fun acc p =>
          let r := Command.update_poll_results acc.1 now p force
          (r.1, acc.2 + (if r.2 then 1 else 0))) acc)).1 pid = cacheGet acc.1 pid := by
  induction l with
  | nil => intro acc _; exact ⟨rfl, rfl⟩
  | cons q t ih =>
    intro acc hq
    rw [List.foldl_cons]
    obtain ⟨h1, h2⟩ := ih _ (fun r hr => hq r (by simp [hr]))
    obtain ⟨g1, g2⟩ :=
      update_one_other acc.1 now q force pid (fun hh => hq q (by simp) hh.symm)
    exact ⟨h1.trans g1, h2.trans g2⟩

lemma fold_entries_main (db : DB) (now : Nat) (force : Bool) (p : Poll)
    (hfind : db.polls.find? (fun x => x.id == p.id) = some p) (l : List Poll) :
    ∀ acc : DB × Nat,
      p ∈ l → (l.map Poll.id).Nodup →
      acc.1.polls = db.polls → acc.1.options = db.options →
      resultFor acc.1 p.id = resultFor db p.id →
      cacheGet acc.1 p.id = cacheGet db p.id →
      ((force = false ∧ skipb db p = true →
          resultFor ((l.foldl (fun acc p =>
              let r := Command.update_poll_results acc.1 now p force
              (r.1, acc.2 + (if r.2 then 1 else 0))) acc)).1 p.id = resultFor db p.id ∧
          cacheGet ((l.foldl (fun acc p =>
              let r := Command.update_poll_results acc.1 now p force
              (r.1, acc.2 + (if r.2 then 1 else 0))) acc)).1 p.id = cacheGet db p.id) ∧
       (force = true ∨ skipb db p = false →
          resultFor ((l.foldl (fun acc p =>
              let r := Command.update_poll_results acc.1 now p force
              (r.1, acc.2 + (if r.2 then 1 else 0))) acc)).1 p.id
            = some { poll := p.id, results_data := some (computeResultsData db now p),
                     total_votes := p.total_votes } ∧
          cacheGet ((l.foldl (fun acc p =>
              let r := Command.update_poll_results acc.1 now p force
              (r.1, acc.2 + (if r.2 then 1 else 0))) acc)).1 p.id
            = some (generate_poll_results db now p))) := by
  induction l with
  | nil =>
    intro acc hmem
    exact absurd hmem (List.not_mem_nil p)
  | cons q t ih =>
    intro acc hmem hnd hpolls hopts hres hcache
    rw [List.foldl_cons]
    have hndt : (t.map Poll.id).Nodup := (List.nodup_cons.mp (by simpa using hnd)).2
    rcases List.mem_cons.mp hmem with rfl | hmem'
    · have hnotin : ∀ r ∈ t, r.id ≠ p.id := by
        intro r hr hcontra
        have hm : p.id ∈ t.map Poll.id := hcontra ▸ List.mem_map_of_mem _ hr
        exact (List.nodup_cons.mp (by simpa using hnd)).1 hm
      have hskipeq : skipb acc.1 p = skipb db p := by
        unfold skipb
        rw [hres]
      constructor
      · rintro ⟨hf, hs⟩
        subst hf
        have hstep : Command.update_poll_results acc.1 now p false = (acc.1, false) :=
          update_one_skipped acc.1 now p (by rw [hskipeq]; exact hs)
        obtain ⟨h1, h2⟩ := fold_entries_frame now false p.id t _ hnotin
        refine ⟨h1.trans ?_, h2.trans ?_⟩
        · show resultFor (Command.update_poll_results acc.1 now p false).1 p.id
              = resultFor db p.id
          rw [hstep]
          exact hres
        · show cacheGet (Command.update_poll_results acc.1 now p false).1 p.id
              = cacheGet db p.id
          rw [hstep]
          exact hcache
      · intro hns
        have hfindacc : acc.1.polls.find? (fun x => x.id == p.id) = some p := by
          rw [hpolls]
          exact hfind
        obtain ⟨g1, g2⟩ := update_one_self acc.1 now p force hfindacc (by
          rcases hns with h | h
          · exact Or.inl h
          · exact Or.inr (by rw [hskipeq]; exact h))
        have e1 : computeResultsData acc.1 now p = computeResultsData db now p := by
          unfold computeResultsData pollOptions
          rw [hopts]
        have e2 : generate_poll_results acc.1 now p = generate_poll_results db now p := by
          unfold generate_poll_results pollOptions
          rw [hopts]
        obtain ⟨h1, h2⟩ := fold_entries_frame now force p.id t _ hnotin
        constructor
        · exact h1.trans (g1.trans (by rw [e1]))
        · exact h2.trans (g2.trans (by rw [e2]))
    · have hqne : q.id ≠ p.id := by
        intro hco
        have hm : p.id ∈ t.map Poll.id := List.mem_map_of_mem _ hmem'
        rw [← hco] at hm
        exact (List.nodup_cons.mp (by simpa using hnd)).1 hm
      obtain ⟨o1, o2⟩ := update_one_other acc.1 now q force p.id (Ne.symm hqne)
      obtain ⟨pv1, pv2, pv3⟩ := update_one_pov acc.1 now q force
      exact ih _ hmem' hndt (pv1.trans hpolls) (pv2.trans hopts)
        (o1.trans hres) (o2.trans hcache)

/-- **C8.** The bulk refresh without `force` skips exactly the active polls
whose previously published `PollResult.total_votes` equals the poll's
current cached `total_votes` — leaving both their `PollResult` row and
their cache entry unchanged — and recomputes and republishes (fresh
`PollResult` payload and fresh cache snapshot) for every other active
poll; with `force` set it recomputes and republishes for every active
poll. -/
theorem C8_refresh_skip_logic (db : DB) (now : Nat)
    (hpn : (db.polls.map Poll.id).Nodup) :
    ∀ p ∈ db.polls, p.is_active = true →
      (skipb db p = true →
          resultFor (Command.handle_all db now false).1 p.id = resultFor db p.id ∧
          cacheGet (Command.handle_all db now false).1 p.id = cacheGet db p.id) ∧
      (skipb db p = false →
          resultFor (Command.handle_all db now false).1 p.id
            = some { poll := p.id, results_data := some (computeResultsData db now p),
                     total_votes := p.total_votes } ∧
          cacheGet (Command.handle_all db now false).1 p.id
            = some (generate_poll_results db now p)) ∧
      (resultFor (Command.handle_all db now true).1 p.id
          = some { poll := p.id, results_data := some (computeResultsData db now p),
                   total_votes := p.total_votes } ∧
       cacheGet (Command.handle_all db now true).1 p.id
          = some (generate_poll_results db now p)) := by
  intro p hp hact
  have hfind : db.polls.find? (fun x => x.id == p.id) = some p :=
    find?_key_of_mem db.polls Poll.id hpn p hp
  have hmemf : p ∈ db.polls.filter (fun x => x.is_active) :=
    List.mem_filter.mpr ⟨hp, hact⟩
  have hndf : ((db.polls.filter (fun x => x.is_active)).map Poll.id).Nodup :=
    List.Nodup.sublist (List.Sublist.map _ (List.filter_sublist _)) hpn
  have hmain0 := fold_entries_main db now false p hfind
    (db.polls.filter (fun x => x.is_active)) (db, 0) hmemf hndf rfl rfl rfl rfl
  have hmain1 := fold_entries_main db now true p hfind
    (db.polls.filter (fun x => x.is_active)) (db, 0) hmemf hndf rfl rfl rfl rfl
  refine ⟨?_, ?_, ?_⟩
  · intro hs
    exact hmain0.1 ⟨rfl, hs⟩
  · intro hs
    exact hmain0.2 (Or.inr hs)
  · exact hmain1.2 (Or.inl rfl)

/-- Witness for C8 on `dbW`, whose published result row matches the poll's
current total (skip case), plus the forced recomputation. -/
theorem C8_refresh_skip_logic_witness :
    (dbW.polls.map Poll.id).Nodup ∧ pollW ∈ dbW.polls ∧ pollW.is_active = true ∧
    skipb dbW pollW = true ∧
    (resultFor (Command.handle_all dbW 0 false).1 pollW.id = resultFor dbW pollW.id ∧
     cacheGet (Command.handle_all dbW 0 false).1 pollW.id = cacheGet dbW pollW.id) ∧
    (resultFor (Command.handle_all dbW 0 true).1 pollW.id
        = some { poll := pollW.id, results_data := some (computeResultsData dbW 0 pollW),
                 total_votes := pollW.total_votes } ∧
     cacheGet (Command.handle_all dbW 0 true).1 pollW.id
        = some (generate_poll_results dbW 0 pollW)) :=
  ⟨by decide, by decide, by decide, by decide,
   (C8_refresh_skip_logic dbW 0 (by decide) pollW (by decide) (by decide)).1 (by decide),
   (C8_refresh_skip_logic dbW 0 (by decide) pollW (by decide) (by decide)).2.2⟩


end PollSystem
